import Mathlib

/-!
# Logging sink field mapper

A shallow embedding of `third_party/terraform/resources/resource_logging_sink.go`:
the expand / flatten mapping between a Terraform configuration record and the
Cloud Logging `LogSink` API object, the update-mask computation, the decoding of
the `bigquery_options` block and the import-state function.

Go's dynamically typed `interface{}` values are embedded as the inductive type
`Value`; an unchecked type assertion `x.(T)` that would abort the Go program is
embedded as `Except.error GoPanic.interfaceConversion`.
-/

namespace LoggingSink

/-! ## Dynamic values -/

/-- A Go `interface{}` value as the configuration layer hands it out: the nil
interface, a `bool`, an `int`, a `string`, a `[]interface{}` or a
`map[string]interface{}` (an association list; the first binding of a key is the
one that is looked up). -/
inductive Value where
  | nil : Value
  | bool (b : Bool) : Value
  | int (i : Int) : Value
  | str (s : String) : Value
  | list (xs : List Value) : Value
  | map (m : List (String × Value)) : Value

instance : Inhabited Value := ⟨Value.nil⟩

/-- The run-time abort of a Go program. The only one this file can raise is the
failed single-result type assertion (`interface conversion`). -/
inductive GoPanic where
  | interfaceConversion : GoPanic
  deriving DecidableEq, Repr

deriving instance DecidableEq for Except

/-- The assertion `v.(string)`. -/
def Value.assertString : Value → Except GoPanic String
  | Value.str s => Except.ok s
  | _ => Except.error GoPanic.interfaceConversion

/-- The assertion `v.(bool)`. -/
def Value.assertBool : Value → Except GoPanic Bool
  | Value.bool b => Except.ok b
  | _ => Except.error GoPanic.interfaceConversion

/-- The assertion `v.([]interface{})`. -/
def Value.assertSlice : Value → Except GoPanic (List Value)
  | Value.list xs => Except.ok xs
  | _ => Except.error GoPanic.interfaceConversion

/-- The assertion `v.(map[string]interface{})`. -/
def Value.assertMap : Value → Except GoPanic (List (String × Value))
  | Value.map m => Except.ok m
  | _ => Except.error GoPanic.interfaceConversion

/-- The comparison `v == nil` on an interface value. -/
def Value.isNil : Value → Bool
  | Value.nil => true
  | _ => false

/-- The test `v` holds a `[]interface{}`. -/
def Value.isSlice : Value → Bool
  | Value.list _ => true
  | _ => false

/-- The test `v` holds a `map[string]interface{}`. -/
def Value.isMap : Value → Bool
  | Value.map _ => true
  | _ => false

/-- The test `v` holds a `bool`. -/
def Value.isBool : Value → Bool
  | Value.bool _ => true
  | _ => false

/-! ## API objects -/

/-- Modelled from the spec: the generated client's `logging.BigQueryOptions`,
of which this file uses the field `UsePartitionedTables`. -/
structure BigQueryOptions where
  UsePartitionedTables : Bool := false
  deriving DecidableEq, Repr

/-- Modelled from the spec: the generated client's `logging.LogSink`, with the
fields this file reads or writes. A field left out of a Go composite literal has
its zero value: the empty string, the nil pointer, the nil slice. -/
structure LogSink where
  Name : String := ""
  Destination : String := ""
  Filter : String := ""
  WriterIdentity : String := ""
  BigqueryOptions : Option BigQueryOptions := none
  ForceSendFields : List String := []
  deriving DecidableEq, Repr

/-- Modelled from the spec: the composite sink identifier `LoggingSinkId`
(parent resource type, parent resource id, sink name), declared next to the
identifier parser. -/
structure LoggingSinkId where
  resourceType : String
  resourceId : String
  name : String
  deriving DecidableEq, Repr

/-! ## The `bigquery_options` block -/

/-- The function `expandLoggingSinkBigqueryOptions` (source lines 100-114). -/
def expandLoggingSinkBigqueryOptions (v : Value) : Except GoPanic (Option BigQueryOptions) :=
  if v.isNil then
    Except.ok none
  else do
    let optionsSlice ← v.assertSlice
    match optionsSlice with
    | [] => Except.ok none
    | first :: _ =>
      if first.isNil then
        Except.ok none
      else do
        let options ← first.assertMap
        match options.lookup "use_partitioned_tables" with
        | some usePartitionedTables =>
          let b ← usePartitionedTables.assertBool
          Except.ok (some { UsePartitionedTables := b })
        | none => Except.ok (some { UsePartitionedTables := false })

/-! ## The schema -/

/-- The `schema.ValueType` tags. -/
inductive ValueType where
  | TypeBool : ValueType
  | TypeInt : ValueType
  | TypeString : ValueType
  | TypeList : ValueType
  deriving DecidableEq, Repr

/-- The `schema.Schema` descriptor of one field, with the attributes the source
sets; `Elem` is the nested `schema.Resource` of a block, when there is one. -/
structure SchemaOf (ρ : Type) where
  typ : ValueType
  Required : Bool := false
  Optional : Bool := false
  Computed : Bool := false
  ForceNew : Bool := false
  MaxItems : Nat := 0
  Elem : Option ρ := none

/-- The descriptor of a field inside a nested block. -/
abbrev ScalarSchema := SchemaOf Empty

/-- The descriptor of a top-level field. -/
abbrev Schema := SchemaOf (List (String × ScalarSchema))

/-- The function `resourceLoggingSinkSchema` (source lines 13-51). The
`DiffSuppressFunc` of `filter` only affects how the schema engine computes the
change flags and is not represented. -/
def resourceLoggingSinkSchema : List (String × Schema) :=
  [ ("name", { typ := ValueType.TypeString, Required := true, ForceNew := true }),
    ("destination", { typ := ValueType.TypeString, Required := true }),
    ("filter", { typ := ValueType.TypeString, Optional := true }),
    ("writer_identity", { typ := ValueType.TypeString, Computed := true }),
    ("bigquery_options",
      { typ := ValueType.TypeList, Optional := true, MaxItems := 1,
        Elem := some
          [ ("use_partitioned_tables", { typ := ValueType.TypeBool, Optional := true }) ] }) ]

/-- Modelled from the spec: the schema engine hands out, for a field of a given
`ValueType`, a value of the matching Go type. -/
def scalarHasType : ValueType → Value → Bool
  | ValueType.TypeBool, Value.bool _ => true
  | ValueType.TypeInt, Value.int _ => true
  | ValueType.TypeString, Value.str _ => true
  | ValueType.TypeList, Value.list _ => true
  | _, _ => false

/-- Modelled from the spec: an element of a block list is nil (the block is
written with no field set) or a map whose entries have the types of the nested
resource. -/
def blockHasType (fields : List (String × ScalarSchema)) : Value → Bool
  | Value.nil => true
  | Value.map m =>
    fields.all fun p =>
      match m.lookup p.1 with
      | none => true
      | some x => scalarHasType p.2.typ x
  | _ => false

/-- Modelled from the spec: the values the schema engine hands out for a
top-level field; a list holds at most `MaxItems` elements when `MaxItems` is
set. -/
def Schema.hasType (s : Schema) : Value → Bool
  | Value.list xs =>
    decide (s.typ = ValueType.TypeList) && (s.MaxItems == 0 || decide (xs.length ≤ s.MaxItems)) &&
      match s.Elem with
      | none => true
      | some fields => xs.all (blockHasType fields)
  | v => scalarHasType s.typ v

/-! ## The configuration record -/

/-- Modelled from the spec: the schema engine's `schema.ResourceData`, the
configuration record with get / set / has-changed accessors and an identifier.
`values` is what `d.Get` reads and `d.Set` writes, `changed` is the change flag
`d.HasChange` reports for a field, `id` is what `d.Id()` returns. The record of
a sink resource is typed by `resourceLoggingSinkSchema` together with the fields
the concrete resource adds to it (its parent field, such as `project` or
`folder`): `extraSchema`. -/
structure ResourceData where
  id : String
  extraSchema : List (String × Schema)
  values : String → Value
  changed : String → Bool

/-- The schema of the record: the fields of `resourceLoggingSinkSchema` and the
fields the concrete resource adds. -/
def ResourceData.schema (d : ResourceData) : List (String × Schema) :=
  resourceLoggingSinkSchema ++ d.extraSchema

/-- The accessor `d.Id()`. -/
def ResourceData.Id (d : ResourceData) : String := d.id

/-- The accessor `d.Get(key)`. -/
def ResourceData.Get (d : ResourceData) (key : String) : Value := d.values key

/-- The accessor `d.HasChange(key)`. -/
def ResourceData.HasChange (d : ResourceData) (key : String) : Bool := d.changed key

/-- Modelled from the spec: the mutator `d.Set(key, value)`, as the record
afterwards. The schema engine writes the value when `key` is a field of the
record's schema and the value has the field's type; otherwise it writes nothing
and returns an error, which this file drops at every call. -/
def ResourceData.Set (d : ResourceData) (key : String) (value : Value) : ResourceData :=
  match d.schema.lookup key with
  | some s =>
    if s.hasType value then
      { d with values := fun k => if k = key then value else d.values k }
    else d
  | none => d

/-- The field `key` is a string field of the record's schema. -/
def ResourceData.isStringField (d : ResourceData) (key : String) : Bool :=
  match d.schema.lookup key with
  | some s => decide (s.typ = ValueType.TypeString)
  | none => false

/-- The record holds, for each field of the schema, a value of the field's
type: it is a configuration record of that schema. -/
def ResourceData.conformsTo (d : ResourceData) (schema : List (String × Schema)) : Bool :=
  schema.all fun p => p.2.hasType (d.Get p.1)

/-! ## Expand, flatten, update, import -/

/-- The constant `defaultLogSinkUpdateMask` (source line 11). -/
def defaultLogSinkUpdateMask : String := "destination,filter,includeChildren"

/-- Go's `strings.Join`: the elements, with `sep` between consecutive ones. -/
def stringsJoin (elems : List String) (sep : String) : String :=
  match elems with
  | [] => ""
  | first :: rest => rest.foldl (fun acc s => acc ++ sep ++ s) first

/-- The function `expandResourceLoggingSink` (source lines 53-67). -/
def expandResourceLoggingSink (d : ResourceData) (resourceType resourceId : String) :
    Except GoPanic (LoggingSinkId × LogSink) := do
  let id : LoggingSinkId :=
    { resourceType := resourceType,
      resourceId := resourceId,
      name := ← (d.Get "name").assertString }
  let sink : LogSink :=
    { Name := ← (d.Get "name").assertString,
      Destination := ← (d.Get "destination").assertString,
      Filter := ← (d.Get "filter").assertString,
      BigqueryOptions := ← expandLoggingSinkBigqueryOptions (d.Get "bigquery_options") }
  return (id, sink)

/-- The function `flattenResourceLoggingSink` (source lines 69-74): the record
after the four `d.Set` calls. -/
def flattenResourceLoggingSink (d : ResourceData) (sink : LogSink) : ResourceData :=
  let d := d.Set "name" (Value.str sink.Name)
  let d := d.Set "destination" (Value.str sink.Destination)
  let d := d.Set "filter" (Value.str sink.Filter)
  let d := d.Set "writer_identity" (Value.str sink.WriterIdentity)
  d

/-- The function `expandResourceLoggingSinkForUpdate` (source lines 76-98): the
request and the update mask. -/
def expandResourceLoggingSinkForUpdate (d : ResourceData) : Except GoPanic (LogSink × String) := do
  let mut sink : LogSink :=
    { Destination := ← (d.Get "destination").assertString,
      Filter := ← (d.Get "filter").assertString,
      ForceSendFields := ["Destination", "Filter"] }
  let mut updateFields : List String := []
  if d.HasChange "destination" then
    updateFields := updateFields ++ ["destination"]
  if d.HasChange "filter" then
    updateFields := updateFields ++ ["filter"]
  if d.HasChange "bigquery_options" then
    sink := { sink with
      BigqueryOptions := ← expandLoggingSinkBigqueryOptions (d.Get "bigquery_options") }
    updateFields := updateFields ++ ["bigqueryOptions"]
  let updateMask := stringsJoin updateFields ","
  return (sink, updateMask)

/-- Go's `error` value, as its message. -/
structure GoError where
  msg : String
  deriving DecidableEq, Repr

/-- The function `resourceLoggingSinkImportState` (source lines 116-127), over
the identifier parser `parseLoggingSinkId`, which is declared elsewhere. The
returned state function takes the record and `meta`; its result is the record
after the call, the returned slice (nil is the empty list) and the returned
error (nil is `none`). -/
def resourceLoggingSinkImportState
    (parseLoggingSinkId : String → Except GoError LoggingSinkId) (sinkType : String) :
    ResourceData → Value → ResourceData × List ResourceData × Option GoError :=
  fun d _meta =>
    match parseLoggingSinkId d.Id with
    | Except.error err => (d, [], some err)
    | Except.ok loggingSinkId =>
      let d := d.Set sinkType (Value.str loggingSinkId.resourceId)
      (d, [d], none)

/-! ## Reading a mask back -/

/-- The comma-separated pieces of a character sequence (Go's `strings.Split`
with separator `","`). -/
def splitComma : List Char → List (List Char)
  | [] => [[]]
  | c :: cs =>
    match splitComma cs with
    | [] => [[c]]
    | w :: ws => if c = ',' then [] :: w :: ws else (c :: w) :: ws

/-- The field names an update mask lists. -/
def maskFields (mask : String) : List String :=
  (splitComma mask.data).map String.mk

/-- A sample record of a project sink. -/
def sampleRecord : ResourceData :=
  { id := "projects/my-project/sinks/my-sink",
    extraSchema :=
      [ ("project", { typ := ValueType.TypeString, Optional := true, Computed := true }) ],
    values := fun k =>
      if k = "name" then Value.str "my-sink"
      else if k = "destination" then Value.str "storage.googleapis.com/bucket"
      else if k = "filter" then Value.str ""
      else if k = "writer_identity" then Value.str ""
      else if k = "bigquery_options" then
        Value.list [Value.map [("use_partitioned_tables", Value.bool true)]]
      else if k = "project" then Value.str ""
      else Value.nil,
    changed := fun k => k = "destination" || k = "bigquery_options" }

/-- A sample record of a folder sink in which nothing changed; its filter is
empty and a `bigquery_options` block is configured. -/
def unchangedRecord : ResourceData :=
  { id := "folders/42/sinks/audit",
    extraSchema :=
      [ ("folder", { typ := ValueType.TypeString, Required := true, ForceNew := true }) ],
    values := fun k =>
      if k = "name" then Value.str "audit"
      else if k = "destination" then Value.str "pubsub.googleapis.com/projects/p/topics/t"
      else if k = "filter" then Value.str ""
      else if k = "writer_identity" then Value.str "serviceAccount:w@example.com"
      else if k = "bigquery_options" then
        Value.list [Value.map [("use_partitioned_tables", Value.bool false)]]
      else if k = "folder" then Value.str "42"
      else Value.nil,
    changed := fun _ => false }

/-- A sample record in which only the filter changed; a `bigquery_options`
block is configured. -/
def filterOnlyRecord : ResourceData :=
  { unchangedRecord with changed := fun k => k = "filter" }

/-- A sample API response. -/
def sampleSink : LogSink :=
  { Name := "audit", Destination := "bigquery.googleapis.com/projects/p/datasets/ds",
    Filter := "severity>=ERROR", WriterIdentity := "serviceAccount:w@example.com",
    BigqueryOptions := some { UsePartitionedTables := true } }

/-- A sample record whose identifier has no `/sinks/` part, so that no sink
identifier can be read from it. -/
def unparsableRecord : ResourceData :=
  { sampleRecord with id := "my-sink" }

/-- A sample identifier parser, a stand-in for `parseLoggingSinkId` on the
identifiers of the sample records: it reads `projects/my-project/sinks/my-sink`
and `folders/42/sinks/audit`, and reports the string `my-sink` as not parsable. -/
def sampleParseLoggingSinkId (id : String) : Except GoError LoggingSinkId :=
  if id = "projects/my-project/sinks/my-sink" then
    Except.ok { resourceType := "projects", resourceId := "my-project", name := "my-sink" }
  else if id = "folders/42/sinks/audit" then
    Except.ok { resourceType := "folders", resourceId := "42", name := "audit" }
  else
    Except.error { msg := "unable to parse logging sink id \"" ++ id ++ "\"" }

/-- The descriptor of `bigquery_options` in `resourceLoggingSinkSchema`. -/
def bigqueryOptionsSchema : Schema :=
  { typ := ValueType.TypeList, Optional := true, MaxItems := 1,
    Elem := some
      [ ("use_partitioned_tables", { typ := ValueType.TypeBool, Optional := true }) ] }

/-! ## Auxiliary facts -/

theorem Set_str_of_isStringField (d : ResourceData) (key v : String)
    (h : d.isStringField key = true) :
    d.Set key (Value.str v) =
      { d with values := fun k => if k = key then Value.str v else d.values k } := by
  unfold ResourceData.isStringField at h
  unfold ResourceData.Set
  cases hl : d.schema.lookup key with
  | none => simp [hl] at h
  | some s =>
    simp only [hl, decide_eq_true_eq] at h
    simp [Schema.hasType, scalarHasType, h]

theorem Set_str_of_not_isStringField (d : ResourceData) (key v : String)
    (h : d.isStringField key = false) :
    d.Set key (Value.str v) = d := by
  unfold ResourceData.isStringField at h
  unfold ResourceData.Set
  cases hl : d.schema.lookup key with
  | none => rfl
  | some s =>
    simp only [hl, decide_eq_false_iff_not] at h
    have hs : s.hasType (Value.str v) = false := by
      cases ht : s.typ <;> simp [Schema.hasType, scalarHasType, ht] at h ⊢
    simp [hs]

theorem Set_frame (d : ResourceData) (key : String) (value : Value) :
    (∀ k, k ≠ key → (d.Set key value).Get k = d.Get k) ∧
    (d.Set key value).Id = d.Id ∧
    (∀ k, (d.Set key value).HasChange k = d.HasChange k) ∧
    (d.Set key value).schema = d.schema := by
  unfold ResourceData.Set
  split
  · split
    · refine ⟨fun k hk => ?_, rfl, fun _ => rfl, rfl⟩
      simp [ResourceData.Get, hk]
    · exact ⟨fun _ _ => rfl, rfl, fun _ => rfl, rfl⟩
  · exact ⟨fun _ _ => rfl, rfl, fun _ => rfl, rfl⟩

theorem isStringField_base (d : ResourceData) :
    d.isStringField "name" = true ∧ d.isStringField "destination" = true ∧
    d.isStringField "filter" = true ∧ d.isStringField "writer_identity" = true := by
  refine ⟨?_, ?_, ?_, ?_⟩ <;>
    simp [ResourceData.isStringField, ResourceData.schema, resourceLoggingSinkSchema,
      List.lookup]

theorem flatten_eq (d : ResourceData) (sink : LogSink) :
    flattenResourceLoggingSink d sink =
      { d with values := fun k =>
          if k = "writer_identity" then Value.str sink.WriterIdentity
          else if k = "filter" then Value.str sink.Filter
          else if k = "destination" then Value.str sink.Destination
          else if k = "name" then Value.str sink.Name
          else d.values k } := by
  have s1 := fun (e : ResourceData) (v : String) =>
    Set_str_of_isStringField e "name" v (isStringField_base e).1
  have s2 := fun (e : ResourceData) (v : String) =>
    Set_str_of_isStringField e "destination" v (isStringField_base e).2.1
  have s3 := fun (e : ResourceData) (v : String) =>
    Set_str_of_isStringField e "filter" v (isStringField_base e).2.2.1
  have s4 := fun (e : ResourceData) (v : String) =>
    Set_str_of_isStringField e "writer_identity" v (isStringField_base e).2.2.2
  simp only [flattenResourceLoggingSink, s1, s2, s3, s4]

theorem expandBigqueryOptions_of_hasType (v : Value)
    (h : bigqueryOptionsSchema.hasType v = true) :
    ∃ bo, expandLoggingSinkBigqueryOptions v = Except.ok bo := by
  cases v with
  | list xs =>
    cases xs with
    | nil => exact ⟨none, rfl⟩
    | cons x rest =>
      cases x with
      | nil => exact ⟨none, rfl⟩
      | map m =>
        simp [Schema.hasType, bigqueryOptionsSchema, blockHasType] at h
        obtain ⟨_, hm, _⟩ := h
        cases hl : m.lookup "use_partitioned_tables" with
        | none => exact ⟨some { UsePartitionedTables := false }, by
            simp [expandLoggingSinkBigqueryOptions, Value.isNil, Value.assertSlice,
              Value.assertMap, hl, bind, Except.bind]⟩
        | some x =>
          rw [hl] at hm
          cases x with
          | bool b => exact ⟨some { UsePartitionedTables := b }, by
              simp [expandLoggingSinkBigqueryOptions, Value.isNil, Value.assertSlice,
                Value.assertMap, Value.assertBool, hl, bind, Except.bind]⟩
          | _ => simp [scalarHasType] at hm
      | _ => simp [Schema.hasType, bigqueryOptionsSchema, blockHasType] at h
  | _ => simp [Schema.hasType, bigqueryOptionsSchema, scalarHasType] at h

theorem conformsTo_schema_fields (d : ResourceData)
    (h : d.conformsTo resourceLoggingSinkSchema = true) :
    (∃ n, d.Get "name" = Value.str n) ∧ (∃ dest, d.Get "destination" = Value.str dest) ∧
    (∃ filt, d.Get "filter" = Value.str filt) ∧
    (∃ w, d.Get "writer_identity" = Value.str w) ∧
    (∃ bo, expandLoggingSinkBigqueryOptions (d.Get "bigquery_options") = Except.ok bo) := by
  simp only [ResourceData.conformsTo, resourceLoggingSinkSchema, List.all_cons, List.all_nil,
    Bool.and_true, Bool.and_eq_true] at h
  obtain ⟨h1, h2, h3, h4, h5⟩ := h
  refine ⟨?_, ?_, ?_, ?_, ?_⟩
  · cases hv : d.Get "name" <;> simp [hv, Schema.hasType, scalarHasType] at h1
    exact ⟨_, rfl⟩
  · cases hv : d.Get "destination" <;> simp [hv, Schema.hasType, scalarHasType] at h2
    exact ⟨_, rfl⟩
  · cases hv : d.Get "filter" <;> simp [hv, Schema.hasType, scalarHasType] at h3
    exact ⟨_, rfl⟩
  · cases hv : d.Get "writer_identity" <;> simp [hv, Schema.hasType, scalarHasType] at h4
    exact ⟨_, rfl⟩
  · exact expandBigqueryOptions_of_hasType _ h5

theorem expandForUpdate_eq (d : ResourceData) (dest filt : String)
    (bo : Option BigQueryOptions)
    (hd : d.Get "destination" = Value.str dest) (hf : d.Get "filter" = Value.str filt)
    (hb : d.HasChange "bigquery_options" = true →
      expandLoggingSinkBigqueryOptions (d.Get "bigquery_options") = Except.ok bo) :
    expandResourceLoggingSinkForUpdate d = Except.ok
      ({ Destination := dest, Filter := filt, ForceSendFields := ["Destination", "Filter"],
         BigqueryOptions := if d.HasChange "bigquery_options" then bo else none },
       stringsJoin
         ((if d.HasChange "destination" then ["destination"] else []) ++
          (if d.HasChange "filter" then ["filter"] else []) ++
          (if d.HasChange "bigquery_options" then ["bigqueryOptions"] else [])) ",") := by
  unfold expandResourceLoggingSinkForUpdate
  rw [hd, hf]
  cases hc : d.HasChange "bigquery_options"
  · cases d.HasChange "destination" <;> cases d.HasChange "filter" <;> rfl
  · rw [hb hc]
    cases d.HasChange "destination" <;> cases d.HasChange "filter" <;> rfl

/-! ## The `bigquery_options` block: results -/

/-- C3: `expandLoggingSinkBigqueryOptions` returns absent for nil, for the empty
list and for a list whose first element is nil; for a list whose first element
is a map it returns a present options object whose `UsePartitionedTables` is the
boolean stored under `"use_partitioned_tables"`, and is false when the map has no
such key. -/
theorem expandLoggingSinkBigqueryOptions_spec (m : List (String × Value))
    (rest : List Value) :
    expandLoggingSinkBigqueryOptions Value.nil = Except.ok none ∧
    expandLoggingSinkBigqueryOptions (Value.list []) = Except.ok none ∧
    expandLoggingSinkBigqueryOptions (Value.list (Value.nil :: rest)) = Except.ok none ∧
    (∀ b : Bool, m.lookup "use_partitioned_tables" = some (Value.bool b) →
      expandLoggingSinkBigqueryOptions (Value.list (Value.map m :: rest)) =
        Except.ok (some { UsePartitionedTables := b })) ∧
    (m.lookup "use_partitioned_tables" = none →
      expandLoggingSinkBigqueryOptions (Value.list (Value.map m :: rest)) =
        Except.ok (some { UsePartitionedTables := false })) := by
  refine ⟨rfl, rfl, rfl, ?_, ?_⟩
  · intro b hl
    simp [expandLoggingSinkBigqueryOptions, Value.isNil, Value.assertSlice, Value.assertMap,
      Value.assertBool, hl, bind, Except.bind]
  · intro hl
    simp [expandLoggingSinkBigqueryOptions, Value.isNil, Value.assertSlice, Value.assertMap,
      hl, bind, Except.bind]

/-- Witness of C3: a block that sets the flag, followed by a second element, and
a block with no key. -/
theorem expandLoggingSinkBigqueryOptions_spec_witness :
    expandLoggingSinkBigqueryOptions
        (Value.list [Value.map [("other", Value.int 1),
          ("use_partitioned_tables", Value.bool true)], Value.str "x"]) =
      Except.ok (some { UsePartitionedTables := true }) ∧
    expandLoggingSinkBigqueryOptions (Value.list [Value.map [("other", Value.int 1)]]) =
      Except.ok (some { UsePartitionedTables := false }) :=
  ⟨(expandLoggingSinkBigqueryOptions_spec
      [("other", Value.int 1), ("use_partitioned_tables", Value.bool true)]
      [Value.str "x"]).2.2.2.1 true rfl,
   (expandLoggingSinkBigqueryOptions_spec [("other", Value.int 1)] []).2.2.2.2 rfl⟩

/-- Counterexample to C8: on the string `"x"`, on the list `["x"]` and on the
block `[{"use_partitioned_tables": "yes"}]` the function aborts with a failed
type assertion; it does not return absent. -/
theorem expandLoggingSinkBigqueryOptions_wrong_shape_panics :
    expandLoggingSinkBigqueryOptions (Value.str "x") =
      Except.error GoPanic.interfaceConversion ∧
    expandLoggingSinkBigqueryOptions (Value.str "x") ≠ Except.ok none ∧
    expandLoggingSinkBigqueryOptions (Value.list [Value.str "x"]) =
      Except.error GoPanic.interfaceConversion ∧
    expandLoggingSinkBigqueryOptions (Value.list [Value.str "x"]) ≠ Except.ok none ∧
    expandLoggingSinkBigqueryOptions
        (Value.list [Value.map [("use_partitioned_tables", Value.str "yes")]]) =
      Except.error GoPanic.interfaceConversion ∧
    expandLoggingSinkBigqueryOptions
        (Value.list [Value.map [("use_partitioned_tables", Value.str "yes")]]) ≠
      Except.ok none := by
  decide

/-- C8, amended: a wrongly shaped argument makes the unchecked type assertion
fail. The function aborts on every non-nil value that is not a list, on every
list whose first element is neither nil nor a map, and on every list whose first
element is a map whose `"use_partitioned_tables"` entry is not a boolean; it
returns absent exactly for nil, for the empty list and for a list whose first
element is nil. -/
theorem expandLoggingSinkBigqueryOptions_wrong_shape (v x : Value)
    (m : List (String × Value)) (rest : List Value) :
    (v.isNil = false → v.isSlice = false →
      expandLoggingSinkBigqueryOptions v = Except.error GoPanic.interfaceConversion) ∧
    (x.isNil = false → x.isMap = false →
      expandLoggingSinkBigqueryOptions (Value.list (x :: rest)) =
        Except.error GoPanic.interfaceConversion) ∧
    (m.lookup "use_partitioned_tables" = some x → x.isBool = false →
      expandLoggingSinkBigqueryOptions (Value.list (Value.map m :: rest)) =
        Except.error GoPanic.interfaceConversion) ∧
    (expandLoggingSinkBigqueryOptions v = Except.ok none ↔
      v = Value.nil ∨ v = Value.list [] ∨ ∃ tl, v = Value.list (Value.nil :: tl)) := by
  refine ⟨?_, ?_, ?_, ?_⟩
  · intro h1 h2
    cases v <;> simp [Value.isNil, Value.isSlice] at h1 h2 <;> rfl
  · intro h1 h2
    cases x <;> simp [Value.isNil, Value.isMap] at h1 h2 <;> rfl
  · intro hl hb
    cases x <;> simp [Value.isBool] at hb <;>
      simp [expandLoggingSinkBigqueryOptions, Value.isNil, Value.assertSlice, Value.assertMap,
        Value.assertBool, hl, bind, Except.bind]
  · constructor
    · intro h
      cases v with
      | nil => exact Or.inl rfl
      | list xs =>
        cases xs with
        | nil => exact Or.inr (Or.inl rfl)
        | cons y tl =>
          cases y with
          | nil => exact Or.inr (Or.inr ⟨tl, rfl⟩)
          | map m' =>
            exfalso
            cases hl : m'.lookup "use_partitioned_tables" with
            | none =>
              simp [expandLoggingSinkBigqueryOptions, Value.isNil, Value.assertSlice,
                Value.assertMap, hl, bind, Except.bind] at h
            | some z =>
              cases z <;>
                simp [expandLoggingSinkBigqueryOptions, Value.isNil, Value.assertSlice,
                  Value.assertMap, Value.assertBool, hl, bind, Except.bind] at h
          | _ =>
            exfalso
            simp [expandLoggingSinkBigqueryOptions, Value.isNil, Value.assertSlice,
              Value.assertMap, bind, Except.bind] at h
      | _ =>
        exfalso
        simp [expandLoggingSinkBigqueryOptions, Value.isNil, Value.assertSlice,
          bind, Except.bind] at h
    · rintro (h | h | ⟨tl, h⟩) <;> subst h <;> rfl

/-- Witness of the amended C8: an integer, a list that starts with a boolean,
and a block whose entry is an integer. -/
theorem expandLoggingSinkBigqueryOptions_wrong_shape_witness :
    expandLoggingSinkBigqueryOptions (Value.int 7) =
      Except.error GoPanic.interfaceConversion ∧
    expandLoggingSinkBigqueryOptions (Value.list [Value.bool true, Value.nil]) =
      Except.error GoPanic.interfaceConversion ∧
    expandLoggingSinkBigqueryOptions
        (Value.list [Value.map [("use_partitioned_tables", Value.int 1)], Value.nil]) =
      Except.error GoPanic.interfaceConversion :=
  ⟨(expandLoggingSinkBigqueryOptions_wrong_shape (Value.int 7) (Value.bool true)
      [("use_partitioned_tables", Value.int 1)] [Value.nil]).1 rfl rfl,
   (expandLoggingSinkBigqueryOptions_wrong_shape (Value.int 7) (Value.bool true)
      [("use_partitioned_tables", Value.int 1)] [Value.nil]).2.1 rfl rfl,
   (expandLoggingSinkBigqueryOptions_wrong_shape (Value.int 7) (Value.int 1)
      [("use_partitioned_tables", Value.int 1)] [Value.nil]).2.2.1 rfl rfl⟩

/-! ## Expand and flatten: results -/

/-- C4: for a configuration record with name `n`, destination `dest`, filter
`filt` and `bigquery_options` value `b`, `expandResourceLoggingSink` returns the
identifier `(t, p, n)` and a request with `Name = n`, `Destination = dest`,
`Filter = filt` and `BigqueryOptions` equal to what
`expandLoggingSinkBigqueryOptions b` returns, which is absent when no block is
configured. -/
theorem expandResourceLoggingSink_spec (d : ResourceData) (n dest filt : String) (b : Value)
    (t p : String) (hc : d.conformsTo resourceLoggingSinkSchema = true)
    (hn : d.Get "name" = Value.str n) (hd : d.Get "destination" = Value.str dest)
    (hf : d.Get "filter" = Value.str filt) (hb : d.Get "bigquery_options" = b) :
    ∃ bo, expandLoggingSinkBigqueryOptions b = Except.ok bo ∧
      expandResourceLoggingSink d t p = Except.ok
        ({ resourceType := t, resourceId := p, name := n },
         { Name := n, Destination := dest, Filter := filt, BigqueryOptions := bo }) ∧
      (b = Value.list [] → bo = none) := by
  obtain ⟨_, _, _, _, bo, hbo⟩ := conformsTo_schema_fields d hc
  rw [hb] at hbo
  refine ⟨bo, hbo, ?_, ?_⟩
  · unfold expandResourceLoggingSink
    rw [hn, hd, hf, hb, hbo]
    rfl
  · intro he
    rw [he] at hbo
    exact (Except.ok.inj hbo).symm

/-- Witness of C4 on `sampleRecord`. -/
theorem expandResourceLoggingSink_spec_witness :
    sampleRecord.conformsTo resourceLoggingSinkSchema = true ∧
    ∃ bo, expandLoggingSinkBigqueryOptions
        (Value.list [Value.map [("use_partitioned_tables", Value.bool true)]]) = Except.ok bo ∧
      expandResourceLoggingSink sampleRecord "projects" "my-project" = Except.ok
        ({ resourceType := "projects", resourceId := "my-project", name := "my-sink" },
         { Name := "my-sink", Destination := "storage.googleapis.com/bucket", Filter := "",
           BigqueryOptions := bo }) ∧
      (Value.list [Value.map [("use_partitioned_tables", Value.bool true)]] = Value.list [] →
        bo = none) :=
  ⟨by decide,
   expandResourceLoggingSink_spec sampleRecord "my-sink" "storage.googleapis.com/bucket" ""
    (Value.list [Value.map [("use_partitioned_tables", Value.bool true)]])
    "projects" "my-project" (by decide) rfl rfl rfl rfl⟩

/-- C5: after `flattenResourceLoggingSink` the record's name, destination, filter
and writer_identity are the response's `Name`, `Destination`, `Filter` and
`WriterIdentity`; every other field, `bigquery_options` included, the identifier
and the change flags are as before, whatever `BigqueryOptions` the response
carries. -/
theorem flattenResourceLoggingSink_spec (d : ResourceData) (sink : LogSink) :
    (flattenResourceLoggingSink d sink).Get "name" = Value.str sink.Name ∧
    (flattenResourceLoggingSink d sink).Get "destination" = Value.str sink.Destination ∧
    (flattenResourceLoggingSink d sink).Get "filter" = Value.str sink.Filter ∧
    (flattenResourceLoggingSink d sink).Get "writer_identity" =
      Value.str sink.WriterIdentity ∧
    (∀ k, k ≠ "name" → k ≠ "destination" → k ≠ "filter" → k ≠ "writer_identity" →
      (flattenResourceLoggingSink d sink).Get k = d.Get k) ∧
    (flattenResourceLoggingSink d sink).Get "bigquery_options" = d.Get "bigquery_options" ∧
    (flattenResourceLoggingSink d sink).Id = d.Id ∧
    (∀ k, (flattenResourceLoggingSink d sink).HasChange k = d.HasChange k) ∧
    (∀ bo, flattenResourceLoggingSink d { sink with BigqueryOptions := bo } =
      flattenResourceLoggingSink d sink) := by
  refine ⟨?_, ?_, ?_, ?_, ?_, ?_, ?_, ?_, ?_⟩
  · simp [flatten_eq, ResourceData.Get]
  · simp [flatten_eq, ResourceData.Get]
  · simp [flatten_eq, ResourceData.Get]
  · simp [flatten_eq, ResourceData.Get]
  · intro k h1 h2 h3 h4
    simp [flatten_eq, ResourceData.Get, h1, h2, h3, h4]
  · simp [flatten_eq, ResourceData.Get]
  · simp [flatten_eq, ResourceData.Id]
  · intro k
    simp [flatten_eq, ResourceData.HasChange]
  · intro bo
    simp [flatten_eq]

/-- Witness of C5: flattening `sampleSink`, which carries BigQuery options, into
`sampleRecord` leaves a field outside the four, `"project"`, as it was. -/
theorem flattenResourceLoggingSink_spec_witness :
    (flattenResourceLoggingSink sampleRecord sampleSink).Get "project" =
      sampleRecord.Get "project" :=
  (flattenResourceLoggingSink_spec sampleRecord sampleSink).2.2.2.2.1 "project"
    (by decide) (by decide) (by decide) (by decide)

/-- C6: round trip. The request that `expandResourceLoggingSink` builds from a
configuration record `c`, flattened into any record `r`, gives a record whose
name, destination and filter are those of `c`; flattened back into `c` it leaves
the three as they were. -/
theorem expand_flatten_roundtrip (c r : ResourceData) (t p : String)
    (hc : c.conformsTo resourceLoggingSinkSchema = true) :
    ∃ id request, expandResourceLoggingSink c t p = Except.ok (id, request) ∧
      (flattenResourceLoggingSink r request).Get "name" = c.Get "name" ∧
      (flattenResourceLoggingSink r request).Get "destination" = c.Get "destination" ∧
      (flattenResourceLoggingSink r request).Get "filter" = c.Get "filter" ∧
      (flattenResourceLoggingSink c request).Get "name" = c.Get "name" ∧
      (flattenResourceLoggingSink c request).Get "destination" = c.Get "destination" ∧
      (flattenResourceLoggingSink c request).Get "filter" = c.Get "filter" := by
  obtain ⟨⟨n, hn⟩, ⟨dest, hd⟩, ⟨filt, hf⟩, _, bo, hbo⟩ := conformsTo_schema_fields c hc
  refine ⟨{ resourceType := t, resourceId := p, name := n },
    { Name := n, Destination := dest, Filter := filt, BigqueryOptions := bo }, ?_, ?_⟩
  · unfold expandResourceLoggingSink
    rw [hn, hd, hf, hbo]
    rfl
  · rw [hn, hd, hf]
    simp [flatten_eq, ResourceData.Get]

/-- Witness of C6: the request expanded from `sampleRecord`, flattened into
`unchangedRecord`. -/
theorem expand_flatten_roundtrip_witness :
    sampleRecord.conformsTo resourceLoggingSinkSchema = true ∧
    ∃ id request,
      expandResourceLoggingSink sampleRecord "projects" "my-project" =
        Except.ok (id, request) ∧
      (flattenResourceLoggingSink unchangedRecord request).Get "name" =
        sampleRecord.Get "name" ∧
      (flattenResourceLoggingSink unchangedRecord request).Get "destination" =
        sampleRecord.Get "destination" ∧
      (flattenResourceLoggingSink unchangedRecord request).Get "filter" =
        sampleRecord.Get "filter" ∧
      (flattenResourceLoggingSink sampleRecord request).Get "name" =
        sampleRecord.Get "name" ∧
      (flattenResourceLoggingSink sampleRecord request).Get "destination" =
        sampleRecord.Get "destination" ∧
      (flattenResourceLoggingSink sampleRecord request).Get "filter" =
        sampleRecord.Get "filter" :=
  ⟨by decide,
   expand_flatten_roundtrip sampleRecord unchangedRecord "projects" "my-project" (by decide)⟩

/-! ## Import: results -/

/-- Counterexample to C9: for the field names `"bigquery_options"` (a list field
of the schema) and `"nonexistent"` (no field of the schema), parsing the
identifier of `sampleRecord` succeeds with `resourceId = "my-project"`, and the
one record that is returned does not hold `"my-project"` under the field name:
the field is as it was before the call. -/
theorem resourceLoggingSinkImportState_not_every_field :
    sampleParseLoggingSinkId sampleRecord.Id = Except.ok
      { resourceType := "projects", resourceId := "my-project", name := "my-sink" } ∧
    resourceLoggingSinkImportState sampleParseLoggingSinkId "bigquery_options" sampleRecord
      Value.nil = (sampleRecord, [sampleRecord], none) ∧
    sampleRecord.Get "bigquery_options" =
      Value.list [Value.map [("use_partitioned_tables", Value.bool true)]] ∧
    sampleRecord.Get "bigquery_options" ≠ Value.str "my-project" ∧
    resourceLoggingSinkImportState sampleParseLoggingSinkId "nonexistent" sampleRecord
      Value.nil = (sampleRecord, [sampleRecord], none) ∧
    sampleRecord.Get "nonexistent" = Value.nil ∧
    sampleRecord.Get "nonexistent" ≠ Value.str "my-project" := by
  refine ⟨by decide, rfl, rfl, ?_, rfl, rfl, ?_⟩
  · intro h
    cases h
  · intro h
    cases h

/-- C9, amended: the state function returned by
`resourceLoggingSinkImportState sinkType` fails exactly when parsing the record's
identifier fails; it then returns the parse error itself and no record, and the
record is as before. When parsing gives `(resourceType, resourceId, name)` it
returns no error and exactly one record. When `sinkType` is a string field of
the record's schema, that record is the input record with field `sinkType` set
to `resourceId`, every other field, the identifier and the change flags as
before; when `sinkType` is not a string field of the record's schema, it is the
input record unmodified. -/
theorem resourceLoggingSinkImportState_spec
    (parseLoggingSinkId : String → Except GoError LoggingSinkId) (sinkType : String)
    (d : ResourceData) (m : Value) :
    (∀ err, parseLoggingSinkId d.Id = Except.error err →
      resourceLoggingSinkImportState parseLoggingSinkId sinkType d m = (d, [], some err)) ∧
    (∀ sinkId, parseLoggingSinkId d.Id = Except.ok sinkId →
      ∃ d', resourceLoggingSinkImportState parseLoggingSinkId sinkType d m =
          (d', [d'], none) ∧
        (d.isStringField sinkType = true → d'.Get sinkType = Value.str sinkId.resourceId) ∧
        (d.isStringField sinkType = false → d' = d) ∧
        (∀ k, k ≠ sinkType → d'.Get k = d.Get k) ∧
        d'.Id = d.Id ∧ (∀ k, d'.HasChange k = d.HasChange k) ∧ d'.schema = d.schema) ∧
    ((resourceLoggingSinkImportState parseLoggingSinkId sinkType d m).2.2.isSome = true ↔
      ∃ err, parseLoggingSinkId d.Id = Except.error err) := by
  refine ⟨?_, ?_, ?_⟩
  · intro err h
    simp [resourceLoggingSinkImportState, h]
  · intro sinkId h
    refine ⟨d.Set sinkType (Value.str sinkId.resourceId), ?_, ?_, ?_, ?_, ?_, ?_, ?_⟩
    · simp [resourceLoggingSinkImportState, h]
    · intro hs
      rw [Set_str_of_isStringField d sinkType _ hs]
      simp [ResourceData.Get]
    · intro hs
      exact Set_str_of_not_isStringField d sinkType _ hs
    · intro k hk
      exact (Set_frame d sinkType _).1 k hk
    · exact (Set_frame d sinkType _).2.1
    · exact (Set_frame d sinkType _).2.2.1
    · exact (Set_frame d sinkType _).2.2.2
  · cases h : parseLoggingSinkId d.Id <;> simp [resourceLoggingSinkImportState, h]

/-- Witness of the amended C9: importing `sampleRecord` as a project sink
succeeds and sets the string field `"project"`; with the list field
`"bigquery_options"` as field name the record comes back unmodified; importing
`unparsableRecord` fails with the parser's error. -/
theorem resourceLoggingSinkImportState_spec_witness :
    sampleRecord.isStringField "project" = true ∧
    sampleRecord.isStringField "bigquery_options" = false ∧
    (∃ d', resourceLoggingSinkImportState sampleParseLoggingSinkId "project" sampleRecord
          Value.nil = (d', [d'], none) ∧
        d'.Get "project" = Value.str "my-project") ∧
    (∃ d', resourceLoggingSinkImportState sampleParseLoggingSinkId "bigquery_options"
          sampleRecord Value.nil = (d', [d'], none) ∧
        d' = sampleRecord) ∧
    resourceLoggingSinkImportState sampleParseLoggingSinkId "project" unparsableRecord
        Value.nil =
      (unparsableRecord, [], some { msg := "unable to parse logging sink id \"my-sink\"" }) := by
  refine ⟨by decide, by decide, ?_, ?_, ?_⟩
  · obtain ⟨d', h, hs, _⟩ :=
      (resourceLoggingSinkImportState_spec sampleParseLoggingSinkId "project" sampleRecord
        Value.nil).2.1 ⟨"projects", "my-project", "my-sink"⟩ (by decide)
    exact ⟨d', h, hs (by decide)⟩
  · obtain ⟨d', h, _, hs, _⟩ :=
      (resourceLoggingSinkImportState_spec sampleParseLoggingSinkId "bigquery_options"
        sampleRecord Value.nil).2.1 ⟨"projects", "my-project", "my-sink"⟩ (by decide)
    exact ⟨d', h, hs (by decide)⟩
  · exact (resourceLoggingSinkImportState_spec sampleParseLoggingSinkId "project"
      unparsableRecord Value.nil).1 ⟨"unable to parse logging sink id \"my-sink\""⟩
      (by decide)

/-! ## Update: results -/

/-- C1: the update mask returned by `expandResourceLoggingSinkForUpdate` is the
comma-joined list of the names of the changed fields, in the fixed order
`destination`, `filter`, `bigqueryOptions`, with no other name and no duplicate:
the joined list is a sublist of the three names and holds a name exactly when
its change flag is set, and splitting a mask with at least one name at its
commas gives the list back. It is `"filter"` when only the filter changed and
`"destination,bigqueryOptions"` when only destination and `bigquery_options`
changed. -/
theorem updateMask_lists_changed_fields (d : ResourceData)
    (hc : d.conformsTo resourceLoggingSinkSchema = true) :
    ∃ sink mask updateFields,
      expandResourceLoggingSinkForUpdate d = Except.ok (sink, mask) ∧
      mask = stringsJoin updateFields "," ∧
      updateFields =
        (if d.HasChange "destination" then ["destination"] else []) ++
        (if d.HasChange "filter" then ["filter"] else []) ++
        (if d.HasChange "bigquery_options" then ["bigqueryOptions"] else []) ∧
      updateFields.Sublist ["destination", "filter", "bigqueryOptions"] ∧
      ("destination" ∈ updateFields ↔ d.HasChange "destination" = true) ∧
      ("filter" ∈ updateFields ↔ d.HasChange "filter" = true) ∧
      ("bigqueryOptions" ∈ updateFields ↔ d.HasChange "bigquery_options" = true) ∧
      (updateFields ≠ [] → maskFields mask = updateFields) ∧
      (d.HasChange "destination" = false → d.HasChange "filter" = true →
        d.HasChange "bigquery_options" = false → mask = "filter") ∧
      (d.HasChange "destination" = true → d.HasChange "filter" = false →
        d.HasChange "bigquery_options" = true → mask = "destination,bigqueryOptions") := by
  obtain ⟨_, ⟨dest, hd⟩, ⟨filt, hf⟩, _, bo, hbo⟩ := conformsTo_schema_fields d hc
  refine ⟨_, _, _, expandForUpdate_eq d dest filt bo hd hf (fun _ => hbo), rfl, rfl, ?_⟩
  cases d.HasChange "destination" <;> cases d.HasChange "filter" <;>
    cases d.HasChange "bigquery_options" <;> decide

/-- Witness of C1 on `sampleRecord`, a configuration record in which destination
and `bigquery_options` changed: the mask is `"destination,bigqueryOptions"`. -/
theorem updateMask_lists_changed_fields_witness :
    sampleRecord.conformsTo resourceLoggingSinkSchema = true ∧
    ∃ sink, expandResourceLoggingSinkForUpdate sampleRecord =
      Except.ok (sink, "destination,bigqueryOptions") := by
  refine ⟨by decide, ?_⟩
  obtain ⟨sink, mask, _, h, _, _, _, _, _, _, _, _, hm⟩ :=
    updateMask_lists_changed_fields sampleRecord (by decide)
  exact ⟨sink, by rw [h, hm rfl rfl rfl]⟩

/-- C2: the request returned by `expandResourceLoggingSinkForUpdate` has
`Destination` and `Filter` equal to the record's destination and filter and
`ForceSendFields = ["Destination", "Filter"]`, whatever the change flags and also
when a string is empty. -/
theorem expandForUpdate_destination_filter (d : ResourceData) (dest filt : String)
    (hc : d.conformsTo resourceLoggingSinkSchema = true)
    (hd : d.Get "destination" = Value.str dest) (hf : d.Get "filter" = Value.str filt) :
    ∃ sink mask, expandResourceLoggingSinkForUpdate d = Except.ok (sink, mask) ∧
      sink.Destination = dest ∧ sink.Filter = filt ∧
      sink.ForceSendFields = ["Destination", "Filter"] := by
  obtain ⟨_, _, _, _, bo, hbo⟩ := conformsTo_schema_fields d hc
  exact ⟨_, _, expandForUpdate_eq d dest filt bo hd hf (fun _ => hbo), rfl, rfl, rfl⟩

/-- Witness of C2 on `unchangedRecord`: nothing changed and the filter is the
empty string. -/
theorem expandForUpdate_destination_filter_witness :
    unchangedRecord.conformsTo resourceLoggingSinkSchema = true ∧
    unchangedRecord.Get "destination" =
      Value.str "pubsub.googleapis.com/projects/p/topics/t" ∧
    unchangedRecord.Get "filter" = Value.str "" ∧
    ∃ sink mask, expandResourceLoggingSinkForUpdate unchangedRecord = Except.ok (sink, mask) ∧
      sink.Destination = "pubsub.googleapis.com/projects/p/topics/t" ∧ sink.Filter = "" ∧
      sink.ForceSendFields = ["Destination", "Filter"] :=
  ⟨by decide, rfl, rfl, expandForUpdate_destination_filter unchangedRecord
    "pubsub.googleapis.com/projects/p/topics/t" "" (by decide) rfl rfl⟩

/-- Counterexample to C7: `unchangedRecord` is a configuration record in which no
field changed; the mask returned for it is the empty string, which is not
`defaultLogSinkUpdateMask`. -/
theorem updateMask_empty_when_unchanged :
    unchangedRecord.conformsTo resourceLoggingSinkSchema = true ∧
    unchangedRecord.HasChange "destination" = false ∧
    unchangedRecord.HasChange "filter" = false ∧
    unchangedRecord.HasChange "bigquery_options" = false ∧
    expandResourceLoggingSinkForUpdate unchangedRecord = Except.ok
      ({ Destination := "pubsub.googleapis.com/projects/p/topics/t", Filter := "",
         ForceSendFields := ["Destination", "Filter"] }, "") ∧
    "" ≠ defaultLogSinkUpdateMask := by
  decide

/-- C7, amended: the mask returned by `expandResourceLoggingSinkForUpdate` is
non-empty exactly when at least one of destination, filter and
`bigquery_options` changed; when no field changed it is the empty string. The
function never returns `defaultLogSinkUpdateMask`. -/
theorem updateMask_empty_iff_unchanged (d : ResourceData)
    (hc : d.conformsTo resourceLoggingSinkSchema = true) :
    ∃ sink mask, expandResourceLoggingSinkForUpdate d = Except.ok (sink, mask) ∧
      (mask ≠ "" ↔ (d.HasChange "destination" = true ∨ d.HasChange "filter" = true ∨
        d.HasChange "bigquery_options" = true)) ∧
      (d.HasChange "destination" = false → d.HasChange "filter" = false →
        d.HasChange "bigquery_options" = false → mask = "") ∧
      mask ≠ defaultLogSinkUpdateMask := by
  obtain ⟨_, ⟨dest, hd⟩, ⟨filt, hf⟩, _, bo, hbo⟩ := conformsTo_schema_fields d hc
  refine ⟨_, _, expandForUpdate_eq d dest filt bo hd hf (fun _ => hbo), ?_⟩
  cases d.HasChange "destination" <;> cases d.HasChange "filter" <;>
    cases d.HasChange "bigquery_options" <;> decide

/-- Witness of the amended C7 on `filterOnlyRecord`. -/
theorem updateMask_empty_iff_unchanged_witness :
    filterOnlyRecord.conformsTo resourceLoggingSinkSchema = true ∧
    ∃ sink mask, expandResourceLoggingSinkForUpdate filterOnlyRecord = Except.ok (sink, mask) ∧
      (mask ≠ "" ↔ (filterOnlyRecord.HasChange "destination" = true ∨
        filterOnlyRecord.HasChange "filter" = true ∨
        filterOnlyRecord.HasChange "bigquery_options" = true)) ∧
      (filterOnlyRecord.HasChange "destination" = false →
        filterOnlyRecord.HasChange "filter" = false →
        filterOnlyRecord.HasChange "bigquery_options" = false → mask = "") ∧
      mask ≠ defaultLogSinkUpdateMask :=
  ⟨by decide, updateMask_empty_iff_unchanged filterOnlyRecord (by decide)⟩

/-- C10: in the request returned by `expandResourceLoggingSinkForUpdate`,
`BigqueryOptions` is what `expandLoggingSinkBigqueryOptions` returns for the
record's `bigquery_options` value when the `bigquery_options` change flag is
set, and is absent when the flag is not set, whatever block the record holds;
hence it is present only if `bigqueryOptions` is one of the names in the
returned mask. -/
theorem expandForUpdate_bigqueryOptions (d : ResourceData)
    (hc : d.conformsTo resourceLoggingSinkSchema = true) :
    ∃ sink mask, expandResourceLoggingSinkForUpdate d = Except.ok (sink, mask) ∧
      (d.HasChange "bigquery_options" = true →
        expandLoggingSinkBigqueryOptions (d.Get "bigquery_options") =
          Except.ok sink.BigqueryOptions) ∧
      (d.HasChange "bigquery_options" = false → sink.BigqueryOptions = none) ∧
      (sink.BigqueryOptions.isSome = true → "bigqueryOptions" ∈ maskFields mask) := by
  obtain ⟨_, ⟨dest, hd⟩, ⟨filt, hf⟩, _, bo, hbo⟩ := conformsTo_schema_fields d hc
  refine ⟨_, _, expandForUpdate_eq d dest filt bo hd hf (fun _ => hbo), ?_⟩
  cases d.HasChange "bigquery_options"
  · simp
  · refine ⟨fun _ => hbo, by simp, fun _ => ?_⟩
    cases d.HasChange "destination" <;> cases d.HasChange "filter" <;> decide

/-- Witness of C10 on `filterOnlyRecord`, which holds a `bigquery_options` block
whose change flag is not set. -/
theorem expandForUpdate_bigqueryOptions_witness :
    filterOnlyRecord.conformsTo resourceLoggingSinkSchema = true ∧
    ∃ sink mask, expandResourceLoggingSinkForUpdate filterOnlyRecord = Except.ok (sink, mask) ∧
      (filterOnlyRecord.HasChange "bigquery_options" = true →
        expandLoggingSinkBigqueryOptions (filterOnlyRecord.Get "bigquery_options") =
          Except.ok sink.BigqueryOptions) ∧
      (filterOnlyRecord.HasChange "bigquery_options" = false → sink.BigqueryOptions = none) ∧
      (sink.BigqueryOptions.isSome = true → "bigqueryOptions" ∈ maskFields mask) :=
  ⟨by decide, expandForUpdate_bigqueryOptions filterOnlyRecord (by decide)⟩

end LoggingSink
